import Mathlib

/-!
Verification of the VT timetable scraper's row-extraction pipeline.

Shallow embedding of `src/scraper/timetable_scraper.py` (helper functions,
row processing, orchestration) and of the credit/instructor field logic of
`TimetableParser._parse_section_row` in `src/scraper/timetable_parser.py`.

Conventions of the embedding:
* Python `str` is Lean `String`; character-level work is done on `String.data`.
* Python `None` is `Option.none`; a function that can raise an exception
  returns `Option` (with `none` for the raised exception), since every raise
  in this code propagates out of the pipeline undisturbed.
* BeautifulSoup `Tag` cells are modelled by `Cell`: the cell's own stripped
  text plus the stripped text of its first `b`/`font`/`p`/`a` child, if any
  (the only selectors the code uses).
* dicts with insertion order are association lists.
-/

/-- Python's default whitespace for `str.strip` / `str.split()` (ASCII part). -/
def isPySpace (c : Char) : Bool :=
  c = ' ' || c = '\t' || c = '\n' || c = '\x0d' || c = '\x0b' || c = '\x0c'

/-- `str.strip()` on a character list. -/
def pyStripL (l : List Char) : List Char :=
  ((l.dropWhile isPySpace).reverse.dropWhile isPySpace).reverse

/-- `str.split(sep)` for a one-character separator: `"".split(":") = [""]`. -/
def splitOnChar (sep : Char) : List Char → List (List Char)
  | [] => [[]]
  | c :: rest =>
    let r := splitOnChar sep rest
    if c = sep then [] :: r
    else
      match r with
      | [] => [[c]]
      | h :: t => (c :: h) :: t

/-- `str.split()` with no separator: split on whitespace runs, no empty
tokens.  The fuel argument only bounds the recursion; `l.length` suffices. -/
def splitWsAux : Nat → List Char → List (List Char)
  | 0, _ => []
  | fuel + 1, l =>
    let l1 := l.dropWhile isPySpace
    match l1 with
    | [] => []
    | _ :: _ =>
      l1.takeWhile (fun c => !isPySpace c) ::
        splitWsAux fuel (l1.dropWhile (fun c => !isPySpace c))

def pySplitWs (l : List Char) : List (List Char) := splitWsAux l.length l

/-- The numeric value of a run of decimal digit characters. -/
def digitsVal (l : List Char) : Nat :=
  l.foldl (fun a c => 10 * a + (c.toNat - 48)) 0

/-- Python `int(str)`: optional surrounding whitespace, optional sign, then
decimal digits.  (Unicode digits and `_` separators are out of scope: no
timetable value uses them.)  `none` models the `ValueError`. -/
def pyIntL (l : List Char) : Option Int :=
  let l1 := pyStripL l
  match l1 with
  | '-' :: r => if r ≠ [] ∧ r.all Char.isDigit then some (-(digitsVal r : Int)) else none
  | '+' :: r => if r ≠ [] ∧ r.all Char.isDigit then some (digitsVal r : Int) else none
  | _ => if l1 ≠ [] ∧ l1.all Char.isDigit then some (digitsVal l1 : Int) else none

def digitChar (n : Nat) : Char := Char.ofNat (48 + n)

/-- Decimal digits of `n`, most significant first (fuel-based, `n + 1` is
always enough fuel). -/
def natDigitsAux : Nat → Nat → List Char → List Char
  | 0, _, acc => acc
  | fuel + 1, n, acc =>
    if n < 10 then digitChar n :: acc
    else natDigitsAux fuel (n / 10) (digitChar (n % 10) :: acc)

def natDigits (n : Nat) : List Char := natDigitsAux (n + 1) n []

/-- Python `f"{i:02d}"`: pad with zeros to width 2 (a sign counts toward the
width, so negative values are never padded here). -/
def fmt2 (i : Int) : List Char :=
  if i < 0 then '-' :: natDigits i.natAbs
  else if i < 10 then '0' :: natDigits i.toNat
  else natDigits i.toNat

/-- The exact arranged-time marker text `parse_time` recognises. -/
def ARRANGED_MARKER : String := "----- (ARR) -----"

/-- `parse_time` (timetable_scraper.py:38-68).  Converts `"H:MMAM"`-style
strings to 24-hour `"HH:MM"`; `None`, `""` and the exact arranged marker give
`"ARR"`.  A `none` result models the `ValueError` Python raises when the
hour/minute cannot be unpacked as integers. -/
def parse_time (time_str : Option String) : Option String :=
  match time_str with
  | none => some "ARR"
  | some s =>
    if s = "" ∨ s = ARRANGED_MARKER then some "ARR"
    else
      let l := s.data
      let time_part := pyStripL (l.take (l.length - 2))
      let am_pm := pyStripL (l.drop (l.length - 2))
      match splitOnChar ':' time_part with
      | [hs, ms] =>
        match pyIntL hs, pyIntL ms with
        | some hour, some minute =>
          let hour : Int :=
            if am_pm = "PM".data ∧ hour ≠ 12 then hour + 12
            else if am_pm = "AM".data ∧ hour = 12 then 0
            else hour
          some (String.mk (fmt2 hour ++ ':' :: fmt2 minute))
        | _, _ => none
      | _ => none

/-- The child selectors the scraper ever passes to `safe_extract_text`. -/
inductive Sel where
  | b | font | p | a
deriving DecidableEq

/-- A table cell (`<td>` Tag): its own `get_text(strip=True)` plus the
stripped text of its first `b`/`font`/`p`/`a` descendant, `none` when the
cell has no such child.  This is everything the scraper observes of a cell. -/
structure Cell where
  text : String
  subB : Option String
  subFont : Option String
  subP : Option String
  subA : Option String
deriving DecidableEq

def Cell.sub (c : Cell) : Sel → Option String
  | .b => c.subB
  | .font => c.subFont
  | .p => c.subP
  | .a => c.subA

def emptyCell : Cell := ⟨"", none, none, none, none⟩

/-- `cols[i]`.  Call sites in the embedded code reach an index only after the
column count has been checked, so the default cell is never observed. -/
def getCell (cols : List Cell) (i : Nat) : Cell := cols.getD i emptyCell

/-- `safe_extract_text` (timetable_scraper.py:71-96): empty text and the
literal `"N/A"` normalise to `None`; with a selector, a missing child is
`None`.  (The `element is None / not a Tag` guard is vacuous here: every
`Cell` models a real Tag.) -/
def safe_extract_text (c : Cell) (selector : Option Sel) : Option String :=
  match selector with
  | none => if c.text ≠ "" ∧ c.text ≠ "N/A" then some c.text else none
  | some sel =>
    match c.sub sel with
    | none => none
    | some t => if t ≠ "" ∧ t ≠ "N/A" then some t else none

/-- `is_additional_times_row` (timetable_scraper.py:99-123): the row has the
expected length and `cols[4]` holds a `<b>` child whose stripped text is the
marker.  (Python indexes `cols[4]` unconditionally, but both call sites pass
`expected_length` 9 or 10, so the access is in bounds whenever the length
check passes.) -/
def is_additional_times_row (cols : List Cell) (expected_length : Nat) : Bool :=
  if cols.length ≠ expected_length then false
  else
    match (getCell cols 4).subB with
    | none => false
    | some t => t = "* Additional Times *"

/-- One element of a `meeting_times` list: either the literal string `"ARR"`
(the arranged sentinel element) or a `{day, begin_time, end_time}` dict. -/
inductive MTEntry where
  | arr
  | mt (day : Nat) (begin_time : String) (end_time : String)
deriving DecidableEq

/-- `DAY_MAPPING` (timetable_scraper.py:22-30) as a lookup: `none` models the
`KeyError` a missing key raises.  Keys are the one-character strings, so a
multi-character token also misses. -/
def DAY_MAPPING (d : List Char) : Option Nat :=
  if d = ['M'] then some 1
  else if d = ['T'] then some 2
  else if d = ['W'] then some 3
  else if d = ['R'] then some 4
  else if d = ['F'] then some 5
  else if d = ['S'] then some 6
  else if d = ['U'] then some 7
  else none

/-- `[DAY_MAPPING[day] for day in tokens]`, failing like the Python loop at
the first unrecognised token. -/
def mapDays : List (List Char) → Option (List Nat)
  | [] => some []
  | d :: rest =>
    match DAY_MAPPING d with
    | none => none
    | some n =>
      match mapDays rest with
      | none => none
      | some ns => some (n :: ns)

/-- `determine_meeting_times` (timetable_scraper.py:186-223).  `none` models
an escaped exception: a `ValueError` from `parse_time` or the `KeyError`
from `DAY_MAPPING[day]`.  `end_time` defaults to `begin_time` when absent. -/
def determine_meeting_times
    (days begin_time end_time : Option String) : Option (List MTEntry) :=
  match days with
  | none => some [MTEntry.arr]
  | some d =>
    if d = "" ∨ d = "(ARR)" then some [MTEntry.arr]
    else
      let end_time := match end_time with | none => begin_time | some e => some e
      match parse_time begin_time with
      | none => none
      | some fb =>
        match parse_time end_time with
        | none => none
        | some fe =>
          match mapDays (pySplitWs d.data) with
          | none => none
          | some ns => some (ns.map (fun n => MTEntry.mt n fb fe))

/-- The dict `parse_new_section_data` builds.  The "arranged" layout fills
`time` and leaves `begin_time`/`end_time` absent; the "regular" layout does
the opposite (`dict.get` on a missing key is `None`, i.e. `none`). -/
structure ParsedRow where
  crn : Option String
  course : Option String
  title : Option String
  schedule_type : Option String
  modality : Option String
  credit_hours : Option String
  capacity : Option String
  instructor : Option String
  days : Option String
  time : Option String
  begin_time : Option String
  end_time : Option String
  location : Option String
  exam_code : Option String
deriving DecidableEq

/-- `parse_new_section_data` (timetable_scraper.py:131-183).  For an
unrecognised `row_type` Python returns the falsy `{}`; `none` models that
(the caller only tests truthiness).  Both call sites have already checked
the column count (12 or 13), so every index is in bounds. -/
def parse_new_section_data (cols : List Cell) (row_type : String) : Option ParsedRow :=
  if row_type = "arranged" then
    some
      { crn := safe_extract_text (getCell cols 0) (some .b)
        course := safe_extract_text (getCell cols 1) (some .font)
        title := safe_extract_text (getCell cols 2) none
        schedule_type := safe_extract_text (getCell cols 3) none
        modality := safe_extract_text (getCell cols 4) (some .p)
        credit_hours := safe_extract_text (getCell cols 5) none
        capacity := safe_extract_text (getCell cols 6) none
        instructor := safe_extract_text (getCell cols 7) none
        days := safe_extract_text (getCell cols 8) none
        time := safe_extract_text (getCell cols 9) none
        begin_time := none
        end_time := none
        location := safe_extract_text (getCell cols 10) none
        exam_code := safe_extract_text (getCell cols 11) (some .a) }
  else if row_type = "regular" then
    some
      { crn := safe_extract_text (getCell cols 0) (some .b)
        course := safe_extract_text (getCell cols 1) (some .font)
        title := safe_extract_text (getCell cols 2) none
        schedule_type := safe_extract_text (getCell cols 3) none
        modality := safe_extract_text (getCell cols 4) (some .p)
        credit_hours := safe_extract_text (getCell cols 5) none
        capacity := safe_extract_text (getCell cols 6) none
        instructor := safe_extract_text (getCell cols 7) none
        days := safe_extract_text (getCell cols 8) none
        time := none
        begin_time := safe_extract_text (getCell cols 9) none
        end_time := safe_extract_text (getCell cols 10) none
        location := safe_extract_text (getCell cols 11) none
        exam_code := safe_extract_text (getCell cols 12) (some .a) }
  else none

/-- The section dict `create_section_object` returns (`SectionData` in the
source).  `meeting_times = none` is Python's `None`. -/
structure SectionData where
  crn : Option String
  course : Option String
  title : Option String
  schedule_type : Option String
  modality : Option String
  credit_hours : Option String
  capacity : Option String
  instructor : Option String
  meeting_times : Option (List MTEntry)
  location : Option String
  exam_code : Option String
deriving DecidableEq

/-- `create_section_object` (timetable_scraper.py:226-255).  The meeting-time
argument collapses to `None` when it is `None` or the empty list. -/
def create_section_object
    (parsed_data : ParsedRow) (meeting_times : Option (List MTEntry)) : SectionData :=
  { crn := parsed_data.crn
    course := parsed_data.course
    title := parsed_data.title
    schedule_type := parsed_data.schedule_type
    modality := parsed_data.modality
    credit_hours := parsed_data.credit_hours
    capacity := parsed_data.capacity
    instructor := parsed_data.instructor
    meeting_times :=
      match meeting_times with
      | some l => if l.length > 0 then some l else none
      | none => none
    location := parsed_data.location
    exam_code := parsed_data.exam_code }

/-- `s` with its `meeting_times` replaced: the only field a continuation row
can touch. -/
def setMT (s : SectionData) (mt : Option (List MTEntry)) : SectionData :=
  { s with meeting_times := mt }

/-- `CourseMap`: course code → section list, insertion-ordered. -/
abbrev CourseMap := List (String × List SectionData)

/-- `SubjectMap`: subject code → CourseMap, insertion-ordered. -/
abbrev SubjectMap := List (String × CourseMap)

def mapLookup (m : CourseMap) (c : String) : Option (List SectionData) :=
  match m with
  | [] => none
  | (k, v) :: rest => if k = c then some v else mapLookup rest c

/-- Update the value at the first occurrence of key `c` (no change when the
key is absent). -/
def mapUpd (m : CourseMap) (c : String) (f : List SectionData → List SectionData) :
    CourseMap :=
  match m with
  | [] => []
  | (k, v) :: rest => if k = c then (k, f v) :: rest else (k, v) :: mapUpd rest c f

def mapSet (m : CourseMap) (c : String) (v : List SectionData) : CourseMap :=
  mapUpd m c (fun _ => v)

/-- `defaultdict(list)` index-then-append: append to the existing entry, or
create the key at the end with a one-element list. -/
def mapAppend (m : CourseMap) (c : String) (s : SectionData) : CourseMap :=
  if (mapLookup m c).isSome then mapUpd m c (fun v => v ++ [s])
  else m ++ [(c, [s])]

/-- `parse_additional_times_row` (timetable_scraper.py:263-319), as a pure
map transformer (Python mutates `course_sections_map` in place).  `none`
models an exception escaping from `determine_meeting_times`.  The
`meeting_times is None` reset, the extend, and the no-extend of the
unrecognised-layout branch are all captured by writing
`some (base ++ newTimes)` into the last section, where `base` is the old
list or `[]` when it was `None`. -/
def parse_additional_times_row (cols : List Cell) (m : CourseMap)
    (curr_course : Option String) (is_online : Bool) : Option CourseMap :=
  match curr_course with
  | none => some m
  | some c =>
    match mapLookup m c with
    | none => some m
    | some sections =>
      match sections.getLast? with
      | none => some m
      | some prev =>
        let base := prev.meeting_times.getD []
        let finish := fun (newTimes : List MTEntry) =>
          mapSet m c (sections.dropLast ++ [setMT prev (some (base ++ newTimes))])
        if is_online ∧ cols.length = 9 then
          let days := safe_extract_text (getCell cols 5) none
          let time_str := safe_extract_text (getCell cols 6) none
          match determine_meeting_times days time_str none with
          | none => none
          | some mts => some (finish mts)
        else if ¬ is_online ∧ cols.length = 10 then
          let days := safe_extract_text (getCell cols 5) none
          let begin_time := safe_extract_text (getCell cols 6) none
          let end_time := safe_extract_text (getCell cols 7) none
          match determine_meeting_times days begin_time end_time with
          | none => none
          | some mts =>
            let mts2 :=
              if mts = [] ∨ mts = [MTEntry.arr] then mts
              else
                match mts.getLast? with
                | some x => [x]
                | none => []
            some (finish mts2)
        else
          some (finish [])

/-- One `<tr>` as `process_subject_rows` sees it: either not a Tag at all, or
its list of `<td>` cells. -/
inductive Row where
  | notTag
  | tag (cols : List Cell)

/-- The aggregation state of `process_subject_rows`: the accumulated course
map and the `curr_course` cursor. -/
structure AggState where
  map : CourseMap
  curr : Option String
deriving DecidableEq

/-- One iteration of the row loop in `process_subject_rows`
(timetable_scraper.py:322-414).  `none` models an exception escaping from
`determine_meeting_times` and aborting the whole page. -/
def process_row (st : AggState) (row : Row) : Option AggState :=
  match row with
  | .notTag => some st
  | .tag cols =>
    if cols.isEmpty then some st
    else
      let col_count := cols.length
      if col_count = 9 ∧ is_additional_times_row cols 9 then
        (parse_additional_times_row cols st.map st.curr true).map (fun m => ⟨m, st.curr⟩)
      else if col_count = 10 ∧ is_additional_times_row cols 10 then
        (parse_additional_times_row cols st.map st.curr false).map (fun m => ⟨m, st.curr⟩)
      else if col_count = 12 then
        match parse_new_section_data cols "arranged" with
        | none => some st
        | some parsed_data =>
          match determine_meeting_times parsed_data.days parsed_data.time none with
          | none => none
          | some mts =>
            match parsed_data.course with
            | none => some st
            | some course =>
              some ⟨mapAppend st.map course (create_section_object parsed_data (some mts)),
                    some course⟩
      else if col_count = 13 then
        match parse_new_section_data cols "regular" with
        | none => some st
        | some parsed_data =>
          match determine_meeting_times parsed_data.days parsed_data.begin_time
              parsed_data.end_time with
          | none => none
          | some mts =>
            match parsed_data.course with
            | none => some st
            | some course =>
              some ⟨mapAppend st.map course (create_section_object parsed_data (some mts)),
                    some course⟩
      else some st

def process_rows_from (st : AggState) : List Row → Option AggState
  | [] => some st
  | r :: rest =>
    match process_row st r with
    | none => none
    | some st' => process_rows_from st' rest

/-- `process_subject_rows` (timetable_scraper.py:322-414): fold the row loop
from the empty map with no current course.  `none` models an escaped
exception. -/
def process_subject_rows (rows : List Row) : Option CourseMap :=
  (process_rows_from ⟨[], none⟩ rows).map AggState.map

/-- What `BeautifulSoup(html).find("table", class_="dataentrytable")` can
yield for a fetched page: the soup constructor raising, no matching table,
or a table with its full `<tr>` list (header included). -/
inductive PageModel where
  | soupRaises
  | noTable
  | table (allRows : List Row)

/-- The outcome of `self.fetcher.fetch_html(subject)` plus the page's parse
shape: the fetch raising, returning `None`, or returning markup that soups
into `page`. -/
inductive FetchOutcome where
  | fetchRaises
  | fetchNone
  | fetched (page : PageModel)

/-- `TimetableScraper.scrape_subject` (timetable_scraper.py:482-526),
parameterised by the fetch/soup oracle.  Fetch exceptions, a `None` page,
soup failures and a missing table are all caught and give `{}`; the
`find_all("tr")[1:]` slice then requires more than one data row.  `none`
models an exception escaping from `process_subject_rows` (that call is
outside every `try`). -/
def scrape_subject (fetch : String → FetchOutcome) (subject : String) :
    Option CourseMap :=
  match fetch subject with
  | .fetchRaises => some []
  | .fetchNone => some []
  | .fetched .soupRaises => some []
  | .fetched .noTable => some []
  | .fetched (.table allRows) =>
    let rows := allRows.drop 1
    if rows.isEmpty ∨ rows.length ≤ 1 then some []
    else process_subject_rows rows

def scrape_multiple_fold (fetch : String → FetchOutcome) (acc : SubjectMap) :
    List String → Option SubjectMap
  | [] => some acc
  | s :: rest =>
    match scrape_subject fetch s with
    | none => none
    | some cm =>
      scrape_multiple_fold fetch (if cm = [] then acc else acc ++ [(s, cm)]) rest

/-- `TimetableScraper.scrape_multiple_subjects` (timetable_scraper.py:528-548):
scrape each subject in order, keeping only non-empty course maps.  `none`
models an exception escaping from one subject's scrape and aborting the
loop. -/
def scrape_multiple_subjects (fetch : String → FetchOutcome)
    (subjects : List String) : Option SubjectMap :=
  scrape_multiple_fold fetch [] subjects

/-- `re.match(r"^\d+(\.\d+)?$", s)` as a Boolean: leading digits, then
either the end or a dot followed by digits up to the end. -/
def isFloatLit (l : List Char) : Bool :=
  let ds := l.takeWhile Char.isDigit
  let rest := l.dropWhile Char.isDigit
  !ds.isEmpty &&
    (rest.isEmpty ||
      (rest.headD ' ' = '.' &&
        !((rest.drop 1).takeWhile Char.isDigit).isEmpty &&
        ((rest.drop 1).dropWhile Char.isDigit).isEmpty))

def beginsWith : List Char → List Char → Bool
  | [], _ => true
  | _ :: _, [] => false
  | p :: ps, c :: cs => p == c && beginsWith ps cs

/-- Python `pat in s` (substring containment). -/
def containsSub (pat : List Char) : List Char → Bool
  | [] => beginsWith pat []
  | c :: rest => beginsWith pat (c :: rest) || containsSub pat rest

/-- `re.search(r"(\d+)\s+TO\s+\d+", s, re.IGNORECASE)`, returning group 1.
Maximal munch is equivalent to the regex's backtracking here because each
quantified class (`\d`, `\s`) is disjoint from the character that must
follow it. -/
def creditRangeAt (l : List Char) : Option (List Char) :=
  let ds := l.takeWhile Char.isDigit
  let r1 := l.dropWhile Char.isDigit
  if ds.isEmpty then none
  else if (r1.takeWhile isPySpace).isEmpty then none
  else
    match r1.dropWhile isPySpace with
    | t :: o :: r3 =>
      if (t == 'T' || t == 't') && (o == 'O' || o == 'o') then
        if (r3.takeWhile isPySpace).isEmpty then none
        else if ((r3.dropWhile isPySpace).takeWhile Char.isDigit).isEmpty then none
        else some ds
      else none
    | _ => none

def creditRangeSearch : List Char → Option (List Char)
  | [] => none
  | c :: rest =>
    match creditRangeAt (c :: rest) with
    | some ds => some ds
    | none => creditRangeSearch rest

/-- The credit-hours computation inside `TimetableParser._parse_section_row`
(timetable_parser.py:436-461), from the credits cell's stripped text to
`credits_val`.  A plain `^\d+(\.\d+)?$` literal goes through
`int(float(s))`, i.e. the value of its integer-part digits (float rounding
only differs beyond 17 significant digits, far past any credit value); a
`" TO "` range resolves to its first matched digit group; anything else is
0. -/
def parse_section_row_credits (credits_text : String) : Nat :=
  let l := credits_text.data
  if isFloatLit l then digitsVal (l.takeWhile Char.isDigit)
  else if containsSub (" TO ").data (l.map Char.toUpper) then
    match creditRangeSearch l with
    | some ds => digitsVal ds
    | none => 0
  else 0

/-- The instructor computation inside `TimetableParser._parse_section_row`
(timetable_parser.py:466-471): an empty (or absent: `get_cell_text` defaults
`""`) or `"N/A"` instructor cell becomes `"Staff"`. -/
def parse_section_row_instructor (instructor_text : String) : String :=
  if instructor_text ≠ "" ∧ instructor_text ≠ "N/A" then instructor_text else "Staff"

/-- A 12-hour time string `H:MMAM` / `H:MMPM` with an unpadded hour, as the
claims quantify over them. -/
def mkTime12 (h m : Nat) (ap : String) : String :=
  String.mk (natDigits h ++ ':' :: (if m < 10 then '0' :: natDigits m else natDigits m) ++ ap.data)

/-- The same with a zero-padded hour (`09:00AM`). -/
def mkTime12pad (h m : Nat) (ap : String) : String :=
  String.mk ((if h < 10 then '0' :: natDigits h else natDigits h) ++
    ':' :: (if m < 10 then '0' :: natDigits m else natDigits m) ++ ap.data)

/-- The 24-hour rendering `HH:MM` with both fields zero-padded to width 2. -/
def mkHHMM (h m : Nat) : String :=
  String.mk ((if h < 10 then '0' :: natDigits h else natDigits h) ++
    ':' :: (if m < 10 then '0' :: natDigits m else natDigits m))

/-- `listStartsWith p l`: `p` is an initial segment of `l`. -/
def listStartsWith : List MTEntry → List MTEntry → Bool
  | [], _ => true
  | _ :: _, [] => false
  | a :: as, b :: bs => a == b && listStartsWith as bs

/-! Concrete fixtures, taken from the repository's own test rows
(`src/tests/timetable_scraper_test.py`): a cell with only text, and cells
whose first `b`/`font`/`p`/`a` child carries the same text. -/

def cellT (t : String) : Cell := ⟨t, none, none, none, none⟩

def cellB (t : String) : Cell := ⟨t, some t, none, none, none⟩

def cellFont (t : String) : Cell := ⟨t, none, some t, none, none⟩

def cellP (t : String) : Cell := ⟨t, none, none, some t, none⟩

def cellA (t : String) : Cell := ⟨t, none, none, none, some t⟩

/-- A 13-column regular section row: CRN 83488, CS-2114, instructor cell
`"N/A"`, days `"T R"`, 9:30AM-10:20AM (the spec's own scenario row). -/
def regRowNACells : List Cell :=
  [cellB "83488", cellFont "CS-2114", cellT "Softw Des and Data Structures",
   cellT "L", cellP "Face-to-Face Instruction", cellT "3", cellT "35",
   cellT "N/A", cellT "T R", cellT "9:30AM", cellT "10:20AM",
   cellT "GOODW 190", cellA "CTE"]

/-- The section the scraper builds from `regRowNACells`. -/
def secNA : SectionData :=
  { crn := some "83488", course := some "CS-2114",
    title := some "Softw Des and Data Structures", schedule_type := some "L",
    modality := some "Face-to-Face Instruction", credit_hours := some "3",
    capacity := some "35", instructor := none,
    meeting_times := some [MTEntry.mt 2 "09:30" "10:20", MTEntry.mt 4 "09:30" "10:20"],
    location := some "GOODW 190", exam_code := some "CTE" }

/-- A 13-column regular section row whose credit cell is the range
`"3 TO 4"` (CRN 83489, instructor given). -/
def regRowTOCells : List Cell :=
  [cellB "83489", cellFont "CS-2114", cellT "Softw Des and Data Structures",
   cellT "L", cellP "Face-to-Face Instruction", cellT "3 TO 4", cellT "35",
   cellT "Dr. Smith", cellT "T R", cellT "9:30AM", cellT "10:20AM",
   cellT "GOODW 190", cellA "CTE"]

/-- The section the scraper builds from `regRowTOCells`. -/
def secTO : SectionData :=
  { crn := some "83489", course := some "CS-2114",
    title := some "Softw Des and Data Structures", schedule_type := some "L",
    modality := some "Face-to-Face Instruction", credit_hours := some "3 TO 4",
    capacity := some "35", instructor := some "Dr. Smith",
    meeting_times := some [MTEntry.mt 2 "09:30" "10:20", MTEntry.mt 4 "09:30" "10:20"],
    location := some "GOODW 190", exam_code := some "CTE" }

/-- A 12-column arranged section row: CRN 12345, CS-1064, days `"(ARR)"`. -/
def arrRowCells : List Cell :=
  [cellB "12345", cellFont "CS-1064", cellT "Intro to Programming", cellT "L",
   cellP "Online", cellT "3", cellT "100", cellT "John Doe", cellT "(ARR)",
   cellT "-----", cellT "Online", cellA "CTE"]

/-- The section the scraper builds from `arrRowCells`: its meeting-time list
is the arranged sentinel. -/
def secArr : SectionData :=
  { crn := some "12345", course := some "CS-1064",
    title := some "Intro to Programming", schedule_type := some "L",
    modality := some "Online", credit_hours := some "3",
    capacity := some "100", instructor := some "John Doe",
    meeting_times := some [MTEntry.arr],
    location := some "Online", exam_code := some "CTE" }

/-- A 10-column in-person "* Additional Times *" continuation row:
Friday 12:20PM-2:50PM in CLMS 170. -/
def contRowCells : List Cell :=
  [cellT "", cellT "", cellT "", cellT "",
   ⟨"* Additional Times *", some "* Additional Times *", none, none, none⟩,
   cellT "F", cellT "12:20PM", cellT "2:50PM", cellT "CLMS 170", cellT ""]

/-- `secArr` after the continuation row: the sentinel and a timed entry mixed
in one list. -/
def secMixed : SectionData :=
  setMT secArr (some [MTEntry.arr, MTEntry.mt 5 "12:20" "14:50"])

def c3map0 : CourseMap := [("CS-1064", [secArr])]

def c3map1 : CourseMap := [("CS-1064", [secMixed])]

def c2st0 : AggState := ⟨c3map0, some "CS-1064"⟩

def c2st1 : AggState := ⟨c3map1, some "CS-1064"⟩

/-- A header row (always dropped by the `[1:]` slice). -/
def hdrRow : Row := Row.tag [cellT "CRN"]

/-- A 13-column row whose days cell holds the unrecognised letter `"Q"`:
processing it raises `KeyError` out of `process_subject_rows`. -/
def badDayRowCells : List Cell :=
  [cellB "99999", cellFont "MATH-1225", cellT "Calculus", cellT "L",
   cellP "Face-to-Face Instruction", cellT "4", cellT "30", cellT "Dr. A",
   cellT "Q", cellT "9:30AM", cellT "10:20AM", cellT "ROOM 1", cellA "CTE"]

/-- A fetch oracle: subject "A" pages contain a row that raises during
processing; subject "B" pages parse cleanly into a non-empty course map. -/
def fetchBad : String → FetchOutcome := fun s =>
  if s = "A" then
    FetchOutcome.fetched (PageModel.table [hdrRow, Row.tag badDayRowCells, Row.tag regRowNACells])
  else if s = "B" then
    FetchOutcome.fetched (PageModel.table [hdrRow, Row.tag regRowNACells, Row.tag regRowTOCells])
  else FetchOutcome.fetchNone

/-- A fetch oracle whose table holds the header plus one single well-formed
data row. -/
def fetchSingle : String → FetchOutcome := fun _ =>
  FetchOutcome.fetched (PageModel.table [hdrRow, Row.tag regRowNACells])

/-! ## Helper lemmas -/

lemma mapDays_none_of_mem {l : List (List Char)} {t : List Char}
    (ht : t ∈ l) (hn : DAY_MAPPING t = none) : mapDays l = none := by
  induction l with
  | nil => cases ht
  | cons d rest ih =>
    rcases List.mem_cons.mp ht with rfl | hmem
    · unfold mapDays; rw [hn]
    · unfold mapDays
      cases DAY_MAPPING d
      · rfl
      · rw [ih hmem]

lemma parse_time_ne_arr (s : String) (h1 : s ≠ "") (h2 : s ≠ ARRANGED_MARKER) :
    parse_time (some s) ≠ some "ARR" := by
  simp only [parse_time]
  rw [if_neg (not_or.mpr ⟨h1, h2⟩)]
  split
  · split
    · intro heq
      injection heq with h3
      have h4 : fmt2 _ ++ ':' :: fmt2 _ = "ARR".data := congrArg String.data h3
      have h5 : ':' ∈ "ARR".data := by
        rw [← h4]; exact List.mem_append_right _ (List.mem_cons_self _ _)
      exact absurd h5 (by decide)
    · exact fun heq => Option.noConfusion heq
  · exact fun heq => Option.noConfusion heq

/-! ## Claim theorems -/

/-- C1 (amended).  `determine_meeting_times` returns the ArrangedSentinel
`["ARR"]` exactly for the days-side arranged markers: days absent (`None`),
days empty, or days equal to `"(ARR)"`; and no result ever mixes the
sentinel element with timed entries.  (A time value equal to the
arranged-time sentinel with concrete days does NOT give the sentinel — see
the counterexample.) -/
theorem claim1_arranged_sentinel_amended :
    (∀ bt et, determine_meeting_times none bt et = some [MTEntry.arr]) ∧
    (∀ bt et, determine_meeting_times (some "") bt et = some [MTEntry.arr]) ∧
    (∀ bt et, determine_meeting_times (some "(ARR)") bt et = some [MTEntry.arr]) ∧
    (∀ days bt et l, determine_meeting_times days bt et = some l →
      l = [MTEntry.arr] ∨ MTEntry.arr ∉ l) := by
  refine ⟨fun bt et => rfl,
          fun bt et => by simp [determine_meeting_times],
          fun bt et => by simp [determine_meeting_times],
          ?_⟩
  intro days bt et l h
  rcases days with _ | d
  · left
    simp only [determine_meeting_times, Option.some.injEq] at h
    exact h.symm
  · by_cases hd : d = "" ∨ d = "(ARR)"
    · left
      simp only [determine_meeting_times] at h
      rw [if_pos hd] at h
      exact (Option.some.injEq _ _ ▸ h).symm
    · simp only [determine_meeting_times] at h
      rw [if_neg hd] at h
      split at h
      · exact Option.noConfusion h
      · split at h
        · exact Option.noConfusion h
        · split at h
          · exact Option.noConfusion h
          · right
            injection h with h'
            subst h'
            intro hmem
            rcases List.mem_map.mp hmem with ⟨n, _, hn⟩
            exact MTEntry.noConfusion hn

/-- C1 counterexample.  With concrete days and a begin time equal to the
arranged-time marker, `determine_meeting_times` returns a timed entry whose
time fields are `"ARR"`, not the ArrangedSentinel `["ARR"]` — the claim's
arranged-time clause fails on the code. -/
theorem claim1_time_sentinel_cx :
    determine_meeting_times (some "M") (some ARRANGED_MARKER) none
      = some [MTEntry.mt 1 "ARR" "ARR"] ∧
    determine_meeting_times (some "M") (some ARRANGED_MARKER) none
      ≠ some [MTEntry.arr] := by decide

/-- C5 (amended).  `determine_meeting_times` maps recognised day letters
(M,T,W,R,F,S,U) to weekday numbers 1..7, but a days token outside the fixed
table makes the whole call raise `KeyError` (modelled `none`) — the letter
is not dropped with a warning.  The last conjunct instantiates the mapping
on the spec's own scenario. -/
theorem claim5_day_mapping_amended :
    (∀ (d : String) bt et, d ≠ "" → d ≠ "(ARR)" →
      (∃ t, t ∈ pySplitWs d.data ∧ DAY_MAPPING t = none) →
      determine_meeting_times (some d) bt et = none) ∧
    (∀ (d : String) bt et fb fe ns, d ≠ "" → d ≠ "(ARR)" →
      parse_time bt = some fb →
      parse_time (match et with | none => bt | some e => some e) = some fe →
      mapDays (pySplitWs d.data) = some ns →
      determine_meeting_times (some d) bt et
        = some (ns.map (fun n => MTEntry.mt n fb fe))) ∧
    determine_meeting_times (some "T R") (some "9:30AM") (some "10:20AM")
      = some [MTEntry.mt 2 "09:30" "10:20", MTEntry.mt 4 "09:30" "10:20"] := by
  refine ⟨?_, ?_, by decide⟩
  · rintro d bt et h1 h2 ⟨t, ht, hn⟩
    simp only [determine_meeting_times]
    rw [if_neg (by tauto)]
    rcases hb : parse_time bt with _ | fb
    · simp [hb]
    · rcases he : parse_time (match et with | none => bt | some e => some e) with _ | fe
      · simp [hb, he]
      · simp [hb, he, mapDays_none_of_mem ht hn]
  · intro d bt et fb fe ns h1 h2 hb he hm
    simp only [determine_meeting_times]
    rw [if_neg (by tauto)]
    simp [hb, he, hm]

/-- C5 counterexample.  A days string containing the unrecognised letter
`"X"` makes `determine_meeting_times` raise (`KeyError`, modelled `none`)
instead of dropping the letter — the claim's "never raises" fails. -/
theorem claim5_unrecognized_day_cx :
    determine_meeting_times (some "M X") (some "9:30AM") (some "10:20AM") = none := by
  decide

/-- C6 (amended).  `parse_time` yields the arranged sentinel `"ARR"` exactly
for `None`, the empty string and the one exact marker
`"----- (ARR) -----"`; every other marker-like or malformed string (e.g.
`"-----"`) raises `ValueError` (modelled `none`) and so crashes the row. -/
theorem claim6_parse_time_sentinels_amended :
    (∀ s : String, parse_time (some s) = some "ARR" ↔ (s = "" ∨ s = ARRANGED_MARKER)) ∧
    parse_time none = some "ARR" ∧
    parse_time (some "-----") = none := by
  refine ⟨fun s => ⟨?_, ?_⟩, rfl, by decide⟩
  · intro h
    by_cases h1 : s = ""
    · exact Or.inl h1
    by_cases h2 : s = ARRANGED_MARKER
    · exact Or.inr h2
    exact absurd h (parse_time_ne_arr s h1 h2)
  · rintro (rfl | rfl)
    · decide
    · decide

/-- C6 counterexample.  The marker text `"TBA"` is not treated as the
arranged sentinel: `parse_time` raises `ValueError` on it (modelled
`none`), refuting "any TBA/ARR/em-dash marker text is treated as the
arranged sentinel rather than raising". -/
theorem claim6_parse_time_tba_cx : parse_time (some "TBA") = none := by decide

lemma fold_skip_empty (fetch : String → FetchOutcome) (s : String)
    (hs : scrape_subject fetch s = some []) :
    ∀ (pre : List String) (post : List String) (acc : SubjectMap),
      scrape_multiple_fold fetch acc (pre ++ s :: post) =
        scrape_multiple_fold fetch acc (pre ++ post) := by
  intro pre
  induction pre with
  | nil =>
    intro post acc
    show (match scrape_subject fetch s with
          | none => none
          | some cm =>
            scrape_multiple_fold fetch (if cm = [] then acc else acc ++ [(s, cm)]) post)
        = scrape_multiple_fold fetch acc post
    rw [hs]
    rfl
  | cons x xs ih =>
    intro post acc
    show (match scrape_subject fetch x with
          | none => none
          | some cm =>
            scrape_multiple_fold fetch (if cm = [] then acc else acc ++ [(x, cm)]) (xs ++ s :: post))
        = (match scrape_subject fetch x with
          | none => none
          | some cm =>
            scrape_multiple_fold fetch (if cm = [] then acc else acc ++ [(x, cm)]) (xs ++ post))
    cases scrape_subject fetch x
    · rfl
    · exact ih post _

lemma fold_abort (fetch : String → FetchOutcome) (s : String)
    (hs : scrape_subject fetch s = none) :
    ∀ (subjects : List String), s ∈ subjects →
      ∀ (acc : SubjectMap), scrape_multiple_fold fetch acc subjects = none := by
  intro subjects
  induction subjects with
  | nil => intro h; cases h
  | cons x xs ih =>
    intro hmem acc
    show (match scrape_subject fetch x with
          | none => none
          | some cm =>
            scrape_multiple_fold fetch (if cm = [] then acc else acc ++ [(x, cm)]) xs)
        = none
    rcases List.mem_cons.mp hmem with rfl | hmem'
    · rw [hs]
    · cases scrape_subject fetch x
      · rfl
      · exact ih hmem' _

/-- C9 (amended).  Fetch-level failures — the fetch raising, returning no
HTML, the soup constructor raising, or no results table — are isolated:
they give that subject an empty CourseMap, and a subject with an empty
CourseMap is omitted from the SubjectMap without disturbing the other
subjects.  But (third conjunct refuted by the counterexample) an exception
escaping `process_subject_rows` for one subject aborts the whole
`scrape_multiple_subjects` batch, because that call sits outside every
`try` block. -/
theorem claim9_isolation_amended :
    (∀ (fetch : String → FetchOutcome) (s : String),
      fetch s = FetchOutcome.fetchRaises ∨ fetch s = FetchOutcome.fetchNone ∨
        fetch s = FetchOutcome.fetched PageModel.soupRaises ∨
        fetch s = FetchOutcome.fetched PageModel.noTable →
      scrape_subject fetch s = some []) ∧
    (∀ (fetch : String → FetchOutcome) (pre post : List String) (s : String),
      scrape_subject fetch s = some [] →
      scrape_multiple_subjects fetch (pre ++ s :: post) =
        scrape_multiple_subjects fetch (pre ++ post)) ∧
    (∀ (fetch : String → FetchOutcome) (subjects : List String) (s : String),
      s ∈ subjects → scrape_subject fetch s = none →
      scrape_multiple_subjects fetch subjects = none) := by
  refine ⟨?_, ?_, ?_⟩
  · intro fetch s h
    rcases h with h | h | h | h <;> simp [scrape_subject, h]
  · intro fetch pre post s hs
    exact fold_skip_empty fetch s hs pre post []
  · intro fetch subjects s hmem hs
    exact fold_abort fetch s hs subjects hmem []

/-- C9 counterexample.  Subject "A"'s page contains a row whose days cell
holds an unrecognised letter; the resulting `KeyError` escapes
`scrape_subject` and aborts the whole batch (`none`), even though subject
"B" on its own scrapes into a non-empty CourseMap — refuting "does not
abort processing of the remaining subjects". -/
theorem claim9_batch_abort_cx :
    scrape_multiple_subjects fetchBad ["A", "B"] = none ∧
    scrape_subject fetchBad "A" = none ∧
    scrape_subject fetchBad "B" = some [("CS-2114", [secNA, secTO])] := by decide

/-- C10.  `scrape_subject` returns the empty map whenever the located table
has at most one row after the header slice — even when that single data row
is well-formed (the second and third conjuncts: the same row alone yields a
course through `process_subject_rows`, yet `scrape_subject` returns `{}`). -/
theorem claim10_min_rows :
    (∀ (fetch : String → FetchOutcome) (s : String) (allRows : List Row),
      fetch s = FetchOutcome.fetched (PageModel.table allRows) →
      (allRows.drop 1).length ≤ 1 → scrape_subject fetch s = some []) ∧
    scrape_subject fetchSingle "CS" = some [] ∧
    process_subject_rows [Row.tag regRowNACells] ≠ some [] := by
  refine ⟨?_, by decide, by decide⟩
  intro fetch s allRows hf hl
  simp only [scrape_subject, hf]
  rw [if_pos (Or.inr hl)]

/-- C3 counterexample.  An arranged section (meeting list `["ARR"]`)
followed by an in-person continuation row with concrete times yields the
mixed list `["ARR", {Friday,12:20,14:50}]`: the list is NOT reset to empty
before appending, and the no-mix invariant fails. -/
theorem claim3_mixed_list_cx :
    process_subject_rows [Row.tag arrRowCells, Row.tag contRowCells]
      = some [("CS-1064", [secMixed])] ∧
    secMixed.meeting_times = some [MTEntry.arr, MTEntry.mt 5 "12:20" "14:50"] := by
  decide

/-- C7 counterexample.  A new-section row whose credit cell is `"3 TO 4"`
produces, through the scraper pipeline (`parse_new_section_data` /
`create_section_object`), a section whose `credit_hours` field is the raw
string `"3 TO 4"` — not the integer lower bound 3. -/
theorem claim7_scraper_raw_credits_cx :
    process_subject_rows [Row.tag regRowTOCells] = some [("CS-2114", [secTO])] ∧
    secTO.credit_hours = some "3 TO 4" := by decide

/-- C8 counterexample.  A new-section row whose instructor cell is the
literal `"N/A"` produces, through the scraper pipeline, a section whose
`instructor` field is `None` (absent) — not the sentinel `"Staff"`. -/
theorem claim8_scraper_instructor_cx :
    process_subject_rows [Row.tag regRowNACells] = some [("CS-2114", [secNA])] ∧
    secNA.instructor = none ∧ secNA.instructor ≠ some "Staff" := by decide

lemma iatr_length (cols : List Cell) (n : Nat)
    (h : is_additional_times_row cols n = true) : cols.length = n := by
  by_cases hl : cols.length = n
  · exact hl
  · unfold is_additional_times_row at h
    rw [if_pos hl] at h
    exact Bool.noConfusion h

lemma mapUpd_keys (m : CourseMap) (c : String)
    (f : List SectionData → List SectionData) :
    (mapUpd m c f).map Prod.fst = m.map Prod.fst := by
  induction m with
  | nil => rfl
  | cons kv rest ih =>
    rcases kv with ⟨k, v⟩
    unfold mapUpd
    by_cases h : k = c
    · simp [h]
    · simp [h, ih]

lemma mapLookup_mapSet (v : List SectionData) :
    ∀ (m : CourseMap) (c : String) (w : List SectionData),
      mapLookup m c = some w → mapLookup (mapSet m c v) c = some v := by
  intro m
  induction m with
  | nil => intro c w h; exact Option.noConfusion h
  | cons kv rest ih =>
    intro c w h
    rcases kv with ⟨k, u⟩
    by_cases hk : k = c
    · simp [mapSet, mapUpd, mapLookup, hk]
    · unfold mapLookup at h
      rw [if_neg hk] at h
      simp only [mapSet, mapUpd]
      rw [if_neg hk]
      unfold mapLookup
      rw [if_neg hk]
      exact ih c w h

/-- Case analysis of `parse_additional_times_row`: a successful run either
leaves the map unchanged (no current course, course missing, no sections)
or replaces the current course's last section with the same section whose
meeting-time list is the old list (or `[]` when it was `None`) extended by
the freshly resolved times. -/
lemma patr_cases (cols : List Cell) (m : CourseMap) (curr : Option String)
    (io : Bool) (m' : CourseMap)
    (h : parse_additional_times_row cols m curr io = some m') :
    (curr = none ∧ m' = m) ∨
    (∃ c, curr = some c ∧ mapLookup m c = none ∧ m' = m) ∨
    (∃ c sections, curr = some c ∧ mapLookup m c = some sections ∧
      sections.getLast? = none ∧ m' = m) ∨
    (∃ c sections prev ts, curr = some c ∧ mapLookup m c = some sections ∧
      sections.getLast? = some prev ∧
      m' = mapSet m c (sections.dropLast ++
        [setMT prev (some (prev.meeting_times.getD [] ++ ts))])) := by
  rcases curr with _ | c
  · left
    simp only [parse_additional_times_row, Option.some.injEq] at h
    exact ⟨rfl, h.symm⟩
  · simp only [parse_additional_times_row] at h
    split at h
    · rename_i hm
      right; left
      simp only [Option.some.injEq] at h
      exact ⟨c, rfl, hm, h.symm⟩
    · rename_i sections hm
      split at h
      · rename_i hl
        right; right; left
        simp only [Option.some.injEq] at h
        exact ⟨c, sections, rfl, hm, hl, h.symm⟩
      · rename_i prev hl
        right; right; right
        split at h
        · split at h
          · exact Option.noConfusion h
          · rename_i mts hd
            simp only [Option.some.injEq] at h
            exact ⟨c, sections, prev, mts, rfl, hm, hl, h.symm⟩
        · split at h
          · split at h
            · exact Option.noConfusion h
            · rename_i mts hd
              simp only [Option.some.injEq] at h
              exact ⟨c, sections, prev, _, rfl, hm, hl, h.symm⟩
          · simp only [Option.some.injEq] at h
            exact ⟨c, sections, prev, [], rfl, hm, hl, h.symm⟩

/-- The frame conditions a successful `parse_additional_times_row` run
guarantees, in the shape the claims use. -/
lemma patr_frame (cols : List Cell) (m : CourseMap) (curr : Option String)
    (io : Bool) (m' : CourseMap)
    (h : parse_additional_times_row cols m curr io = some m') :
    m'.map Prod.fst = m.map Prod.fst ∧
    (curr = none → m' = m) ∧
    (∀ c, curr = some c → mapLookup m c = none → m' = m) ∧
    (∀ c sections, curr = some c → mapLookup m c = some sections →
      sections.getLast? = none → m' = m) ∧
    (∀ c sections prev, curr = some c → mapLookup m c = some sections →
      sections.getLast? = some prev →
      ∃ mt, m' = mapSet m c (sections.dropLast ++ [setMT prev mt])) := by
  rcases patr_cases cols m curr io m' h with
    ⟨hc, rfl⟩ | ⟨c0, hc, hl, rfl⟩ | ⟨c0, sec0, hc, hl, hg, rfl⟩ |
    ⟨c0, sec0, prev0, ts0, hc, hl, hg, rfl⟩
  · refine ⟨rfl, fun _ => rfl, fun c h0 _ => rfl, fun c sections h0 _ _ => rfl, ?_⟩
    intro c sections prev h0 _ _
    rw [hc] at h0
    exact Option.noConfusion h0
  · refine ⟨rfl, fun _ => rfl, fun c _ _ => rfl, fun c sections _ _ _ => rfl, ?_⟩
    intro c sections prev h0 hlook hlast
    rw [hc] at h0
    injection h0 with e; subst e
    rw [hl] at hlook
    exact Option.noConfusion hlook
  · refine ⟨rfl, fun _ => rfl, fun c _ _ => rfl, fun c sections _ _ _ => rfl, ?_⟩
    intro c sections prev h0 hlook hlast
    rw [hc] at h0
    injection h0 with e; subst e
    rw [hl] at hlook
    injection hlook with e2; subst e2
    rw [hg] at hlast
    exact Option.noConfusion hlast
  · refine ⟨mapUpd_keys m c0 _, ?_, ?_, ?_, ?_⟩
    · intro h0; rw [hc] at h0; exact Option.noConfusion h0
    · intro c h0 hlook
      rw [hc] at h0
      injection h0 with e; subst e
      rw [hl] at hlook
      exact Option.noConfusion hlook
    · intro c sections h0 hlook hlast
      rw [hc] at h0
      injection h0 with e; subst e
      rw [hl] at hlook
      injection hlook with e2; subst e2
      rw [hg] at hlast
      exact Option.noConfusion hlast
    · intro c sections prev h0 hlook hlast
      rw [hc] at h0
      injection h0 with e; subst e
      rw [hl] at hlook
      injection hlook with e2; subst e2
      rw [hg] at hlast
      injection hlast with e3; subst e3
      exact ⟨some (prev0.meeting_times.getD [] ++ ts0), rfl⟩

lemma listStartsWith_append (a b : List MTEntry) : listStartsWith a (a ++ b) = true := by
  induction a with
  | nil => rfl
  | cons x xs ih => simp [listStartsWith, ih]

/-- C2.  Processing a continuation ("* Additional Times *") row never adds a
Course entry or Section record: the key list is unchanged, the map is
unchanged when there is no current course (or the current course is missing
or has no sections), and otherwise only the last section of the current
course changes, and only in its `meeting_times` field. -/
theorem claim2_continuation_frame (st : AggState) (cols : List Cell) (st' : AggState)
    (hshape : is_additional_times_row cols 9 = true ∨ is_additional_times_row cols 10 = true)
    (hrun : process_row st (Row.tag cols) = some st') :
    st'.curr = st.curr ∧
    st'.map.map Prod.fst = st.map.map Prod.fst ∧
    (st.curr = none → st'.map = st.map) ∧
    (∀ c, st.curr = some c → mapLookup st.map c = none → st'.map = st.map) ∧
    (∀ c sections, st.curr = some c → mapLookup st.map c = some sections →
      sections.getLast? = none → st'.map = st.map) ∧
    (∀ c sections prev, st.curr = some c → mapLookup st.map c = some sections →
      sections.getLast? = some prev →
      ∃ mt, st'.map = mapSet st.map c (sections.dropLast ++ [setMT prev mt])) := by
  rcases hshape with hrow | hrow
  · have hlen := iatr_length cols 9 hrow
    have hne : cols.isEmpty = false := by
      cases cols
      · simp at hlen
      · rfl
    simp only [process_row, hne, Bool.false_eq_true, if_false] at hrun
    rw [if_pos ⟨hlen, hrow⟩] at hrun
    rcases hp : parse_additional_times_row cols st.map st.curr true with _ | m'
    · rw [hp] at hrun; exact Option.noConfusion hrun
    · rw [hp, Option.map_some'] at hrun
      injection hrun with hst
      obtain ⟨hk, h1, h2, h3, h4⟩ := patr_frame cols st.map st.curr true m' hp
      rw [← hst]
      exact ⟨rfl, hk, h1, h2, h3, h4⟩
  · have hlen := iatr_length cols 10 hrow
    have hne : cols.isEmpty = false := by
      cases cols
      · simp at hlen
      · rfl
    simp only [process_row, hne, Bool.false_eq_true, if_false] at hrun
    rw [if_neg (by simp [hlen])] at hrun
    rw [if_pos ⟨hlen, hrow⟩] at hrun
    rcases hp : parse_additional_times_row cols st.map st.curr false with _ | m'
    · rw [hp] at hrun; exact Option.noConfusion hrun
    · rw [hp, Option.map_some'] at hrun
      injection hrun with hst
      obtain ⟨hk, h1, h2, h3, h4⟩ := patr_frame cols st.map st.curr false m' hp
      rw [← hst]
      exact ⟨rfl, hk, h1, h2, h3, h4⟩

/-- C2 witness: the in-person continuation fixture applied to a one-course
state keeps the cursor and the key list unchanged. -/
theorem claim2_continuation_frame_witness :
    c2st1.curr = c2st0.curr ∧
    c2st1.map.map Prod.fst = c2st0.map.map Prod.fst := by
  have h := claim2_continuation_frame c2st0 contRowCells c2st1
    (Or.inr (by decide)) (by decide)
  exact ⟨h.1, h.2.1⟩

/-- C3 (amended).  The reset-to-empty happens only when the section's
meeting-times value is absent (`None`); when a list is present — including
the ArrangedSentinel `["ARR"]` — a continuation row keeps it as a prefix
and appends, so an arranged section that receives concrete continuation
times ends with a mixed list (see the counterexample). -/
theorem claim3_no_reset_amended (cols : List Cell) (m : CourseMap)
    (curr : Option String) (io : Bool) (m' : CourseMap) (c : String)
    (sections : List SectionData) (prev : SectionData) (l0 : List MTEntry)
    (l' : List SectionData) (s' : SectionData) (lf : List MTEntry)
    (hrun : parse_additional_times_row cols m curr io = some m')
    (hc : curr = some c) (hs : mapLookup m c = some sections)
    (hp : sections.getLast? = some prev) (hmt : prev.meeting_times = some l0)
    (hl' : mapLookup m' c = some l') (hs' : l'.getLast? = some s')
    (hlf : s'.meeting_times = some lf) :
    listStartsWith l0 lf = true := by
  rcases patr_cases cols m curr io m' hrun with
    ⟨h0, _⟩ | ⟨c0, h0, hl, _⟩ | ⟨c0, sec0, h0, hl, hg, _⟩ |
    ⟨c0, sec0, prev0, ts0, h0, hl, hg, hm'⟩
  · rw [hc] at h0; exact Option.noConfusion h0
  · rw [hc] at h0
    injection h0 with e; subst e
    rw [hs] at hl
    exact Option.noConfusion hl
  · rw [hc] at h0
    injection h0 with e; subst e
    rw [hs] at hl
    injection hl with e2; subst e2
    rw [hp] at hg
    exact Option.noConfusion hg
  · rw [hc] at h0
    injection h0 with e; subst e
    rw [hs] at hl
    injection hl with e2; subst e2
    rw [hp] at hg
    injection hg with e3; subst e3
    have hlook := mapLookup_mapSet
      (sections.dropLast ++
        [setMT prev (some (prev.meeting_times.getD [] ++ ts0))]) m c sections hs
    rw [← hm'] at hlook
    rw [hl'] at hlook
    injection hlook with e4
    rw [e4, List.getLast?_concat] at hs'
    injection hs' with e5
    rw [← e5] at hlf
    simp only [setMT] at hlf
    rw [hmt] at hlf
    simp only [Option.getD] at hlf
    injection hlf with e6
    rw [← e6]
    exact listStartsWith_append l0 ts0

/-- C3 witness: the arranged sentinel list survives as a prefix of the mixed
list produced by the continuation fixture. -/
theorem claim3_no_reset_witness :
    listStartsWith [MTEntry.arr] [MTEntry.arr, MTEntry.mt 5 "12:20" "14:50"] = true := by
  exact claim3_no_reset_amended contRowCells c3map0 (some "CS-1064") false c3map1
    "CS-1064" [secArr] secArr [MTEntry.arr] [secMixed] secMixed
    [MTEntry.arr, MTEntry.mt 5 "12:20" "14:50"]
    (by decide) rfl (by decide) (by decide) (by decide) (by decide) (by decide) (by decide)

lemma takeWhile_app (p : Char → Bool) (a l : List Char) (h : ∀ c ∈ a, p c = true) :
    (a ++ l).takeWhile p = a ++ l.takeWhile p := by
  induction a with
  | nil => rfl
  | cons x xs ih =>
    have hx : p x = true := h x (List.mem_cons_self x xs)
    simp only [List.cons_append, List.takeWhile_cons, hx, if_true]
    rw [ih (fun c hc => h c (List.mem_cons_of_mem x hc))]

lemma dropWhile_app (p : Char → Bool) (a l : List Char) (h : ∀ c ∈ a, p c = true) :
    (a ++ l).dropWhile p = l.dropWhile p := by
  induction a with
  | nil => rfl
  | cons x xs ih =>
    have hx : p x = true := h x (List.mem_cons_self x xs)
    simp only [List.cons_append, List.dropWhile_cons, hx, if_true]
    exact ih (fun c hc => h c (List.mem_cons_of_mem x hc))

lemma isPySpace_false_of_isDigit (c : Char) (h : c.isDigit = true) :
    isPySpace c = false := by
  by_cases e1 : c = ' '
  · subst e1; exact absurd h (by decide)
  by_cases e2 : c = '\t'
  · subst e2; exact absurd h (by decide)
  by_cases e3 : c = '\n'
  · subst e3; exact absurd h (by decide)
  by_cases e4 : c = '\x0d'
  · subst e4; exact absurd h (by decide)
  by_cases e5 : c = '\x0b'
  · subst e5; exact absurd h (by decide)
  by_cases e6 : c = '\x0c'
  · subst e6; exact absurd h (by decide)
  simp [isPySpace, e1, e2, e3, e4, e5, e6]

lemma containsSub_cons (pat : List Char) (c : Char) (l : List Char)
    (h : containsSub pat l = true) : containsSub pat (c :: l) = true := by
  unfold containsSub
  rw [h]
  simp

lemma containsSub_append (pat u l : List Char) (h : containsSub pat l = true) :
    containsSub pat (u ++ l) = true := by
  induction u with
  | nil => exact h
  | cons x xs ih => exact containsSub_cons pat x _ ih

lemma containsSub_front (pat : List Char) (c : Char) (l : List Char)
    (h : beginsWith pat (c :: l) = true) : containsSub pat (c :: l) = true := by
  unfold containsSub
  rw [h]
  simp

lemma isFloatLit_append_space (a r : List Char) (ha : ∀ c ∈ a, c.isDigit = true) :
    isFloatLit (a ++ ' ' :: r) = false := by
  have hsp : Char.isDigit ' ' = false := by decide
  unfold isFloatLit
  rw [takeWhile_app _ a _ ha, dropWhile_app _ a _ ha]
  simp [List.takeWhile_cons, List.dropWhile_cons, hsp]

lemma creditRangeAt_pattern (a : List Char) (bc : Char) (b' : List Char)
    (ha : a ≠ []) (hda : ∀ c ∈ a, c.isDigit = true) (hdb : bc.isDigit = true) :
    creditRangeAt (a ++ ' ' :: 'T' :: 'O' :: ' ' :: bc :: b') = some a := by
  have hsp : Char.isDigit ' ' = false := by decide
  have hspT : isPySpace 'T' = false := by decide
  have hspsp : isPySpace ' ' = true := by decide
  have hbsp : isPySpace bc = false := isPySpace_false_of_isDigit bc hdb
  have hae : a.isEmpty = false := by
    cases a
    · exact absurd rfl ha
    · rfl
  unfold creditRangeAt
  rw [takeWhile_app _ a _ hda, dropWhile_app _ a _ hda]
  simp only [List.takeWhile_cons, List.dropWhile_cons, hsp, hspT, hspsp, hbsp,
    if_true, if_false, Bool.false_eq_true, List.append_nil, List.isEmpty_cons,
    List.takeWhile_nil, List.dropWhile_nil, hae, hdb]
  simp [List.isEmpty_eq_true, hae]

lemma creditRangeSearch_pattern (ac : Char) (a' : List Char) (bc : Char) (b' : List Char)
    (hda : ∀ c ∈ ac :: a', c.isDigit = true) (hdb : bc.isDigit = true) :
    creditRangeSearch ((ac :: a') ++ ' ' :: 'T' :: 'O' :: ' ' :: bc :: b')
      = some (ac :: a') := by
  have h := creditRangeAt_pattern (ac :: a') bc b' (by simp) hda hdb
  show (match creditRangeAt ((ac :: a') ++ ' ' :: 'T' :: 'O' :: ' ' :: bc :: b') with
        | some ds => some ds
        | none => creditRangeSearch (a' ++ ' ' :: 'T' :: 'O' :: ' ' :: bc :: b'))
      = some (ac :: a')
  rw [h]

/-- C7 (amended).  The credit-range resolution lives in
`TimetableParser._parse_section_row`: a credits cell of the form
`"<a> TO <b>"` yields the integer lower bound `a` (first conjunct, with
`"3 TO 4" → 3` as the third conjunct).  The `timetable_scraper.py` pipeline,
by contrast, never parses credits: `create_section_object` stores the raw
cell text unchanged (second conjunct; see the counterexample). -/
theorem claim7_credit_range_amended :
    (∀ (a b : List Char), a ≠ [] → b ≠ [] →
      (∀ c ∈ a, c.isDigit = true) → (∀ c ∈ b, c.isDigit = true) →
      parse_section_row_credits (String.mk (a ++ (" TO ").data ++ b)) = digitsVal a) ∧
    (∀ pd mt, (create_section_object pd mt).credit_hours = pd.credit_hours) ∧
    parse_section_row_credits "3 TO 4" = 3 := by
  refine ⟨?_, fun pd mt => rfl, by decide⟩
  intro a b ha hb hda hdb
  rcases b with _ | ⟨bc, b'⟩
  · exact absurd rfl hb
  rcases a with _ | ⟨ac, a'⟩
  · exact absurd rfl ha
  have hdbc : bc.isDigit = true := hdb bc (List.mem_cons_self bc b')
  have hfl := isFloatLit_append_space (ac :: a') ('T' :: 'O' :: ' ' :: bc :: b') hda
  have htU : Char.toUpper 'T' = 'T' := by decide
  have hoU : Char.toUpper 'O' = 'O' := by decide
  have hspU : Char.toUpper ' ' = ' ' := by decide
  have hcs : containsSub (" TO ").data
      (((ac :: a') ++ ' ' :: 'T' :: 'O' :: ' ' :: bc :: b').map Char.toUpper) = true := by
    have hmap : ((ac :: a') ++ ' ' :: 'T' :: 'O' :: ' ' :: bc :: b').map Char.toUpper
        = (ac :: a').map Char.toUpper ++
            ' ' :: 'T' :: 'O' :: ' ' :: (bc :: b').map Char.toUpper := by
      simp [htU, hoU, hspU]
    rw [hmap]
    apply containsSub_append
    apply containsSub_front
    rfl
  have hsr := creditRangeSearch_pattern ac a' bc b' hda hdbc
  have key : ∀ L : List Char, isFloatLit L = false →
      containsSub (" TO ").data (L.map Char.toUpper) = true →
      creditRangeSearch L = some (ac :: a') →
      parse_section_row_credits (String.mk L) = digitsVal (ac :: a') := by
    intro L h1 h2 h3
    simp only [parse_section_row_credits]
    rw [h1, h2, h3]
    simp
  have harr : (ac :: a') ++ (" TO ").data ++ bc :: b'
      = (ac :: a') ++ ' ' :: 'T' :: 'O' :: ' ' :: bc :: b' := by
    simp [List.append_assoc]
  rw [show String.mk ((ac :: a') ++ (" TO ").data ++ bc :: b')
      = String.mk ((ac :: a') ++ ' ' :: 'T' :: 'O' :: ' ' :: bc :: b')
      from congrArg _ harr]
  exact key _ hfl hcs hsr

/-- C8 (amended).  The `"Staff"` defaulting lives in
`TimetableParser._parse_section_row`: an empty (or absent) or `"N/A"`
instructor cell yields `"Staff"`, any other text is kept (first two
conjuncts).  The `timetable_scraper.py` pipeline, by contrast, stores the
`safe_extract_text` result unchanged, so an absent/empty/`"N/A"` cell gives
`None`, not `"Staff"` (third conjunct; see the counterexample). -/
theorem claim8_instructor_amended :
    (∀ t : String, t = "" ∨ t = "N/A" → parse_section_row_instructor t = "Staff") ∧
    (∀ t : String, t ≠ "" → t ≠ "N/A" → parse_section_row_instructor t = t) ∧
    (∀ pd mt, (create_section_object pd mt).instructor = pd.instructor) := by
  refine ⟨?_, ?_, fun pd mt => rfl⟩
  · rintro t (rfl | rfl)
    · decide
    · decide
  · intro t h1 h2
    simp [parse_section_row_instructor, h1, h2]

set_option maxRecDepth 10000 in
set_option maxHeartbeats 4000000 in
/-- C4.  For every valid 12-hour string `H:MMAM`/`H:MMPM` (hour 1-12,
minute 00-59), `parse_time` returns the correct 24-hour `HH:MM`: 12 AM maps
to 00, 12 PM stays 12, other PM hours add 12.  Decided by evaluating
`parse_time` on all 1440 inputs. -/
theorem claim4_parse_time_valid :
    ∀ h : Nat, h < 13 → ∀ m : Nat, m < 60 → 1 ≤ h →
      parse_time (some (mkTime12 h m "AM"))
          = some (mkHHMM (if h = 12 then 0 else h) m) ∧
        parse_time (some (mkTime12 h m "PM"))
          = some (mkHHMM (if h = 12 then 12 else h + 12) m) := by
  decide

/-- C4 witness: the claim's three named instances, `12:00AM → 00:00`,
`12:00PM → 12:00` and `11:59PM → 23:59`, by instantiating the theorem. -/
theorem claim4_parse_time_witness :
    parse_time (some (mkTime12 12 0 "AM")) = some (mkHHMM 0 0) ∧
    parse_time (some (mkTime12 12 0 "PM")) = some (mkHHMM 12 0) ∧
    parse_time (some (mkTime12 11 59 "PM")) = some (mkHHMM 23 59) := by
  refine ⟨?_, ?_, ?_⟩
  · exact (claim4_parse_time_valid 12 (by decide) 0 (by decide) (by decide)).1
  · exact (claim4_parse_time_valid 12 (by decide) 0 (by decide) (by decide)).2
  · exact (claim4_parse_time_valid 11 (by decide) 59 (by decide) (by decide)).2
